import Mathlib

/-!
Shallow embedding of the Earthquake Visualizer application (src/src/App.js)
and proofs of its specified properties.

The application is a single React component.  We embed its pure pieces
directly as Lean functions and its stateful behaviour as explicit state
passing over an `AppState` record, with the render-time derived values
(`filteredQuakes`, the marker list) as functions of the state.

JavaScript numbers are modelled by `JNum`: either an actual (rational)
number, `nan`, or `undefined`.  JS relational operators on non-numbers
(NaN, undefined) always yield `false`; arithmetic on them yields NaN.
-/

/-- Model of a JavaScript numeric value: a real number (as a rational),
NaN, or undefined (a missing field read). -/
inductive JNum where
  | num (val : ℚ)
  | nan
  | undef
deriving DecidableEq

/-- JS `a >= b`: real comparison on numbers, `false` whenever either side
is NaN or undefined (which coerces to NaN). -/
def jsGE : JNum → JNum → Bool
  | .num a, .num b => decide (b ≤ a)
  | _, _ => false

/-- JS `a < b`: real comparison on numbers, `false` on NaN/undefined. -/
def jsLt : JNum → JNum → Bool
  | .num a, .num b => decide (a < b)
  | _, _ => false

/-- JS `a + b`: NaN-propagating addition. -/
def jsAdd : JNum → JNum → JNum
  | .num a, .num b => .num (a + b)
  | _, _ => .nan

/-- JS `a * b`: NaN-propagating multiplication. -/
def jsMul : JNum → JNum → JNum
  | .num a, .num b => .num (a * b)
  | _, _ => .nan

/-- `quake.properties` of a feed feature: magnitude, place, time (epoch
millis), detail URL. -/
structure QuakeProperties where
  mag : JNum
  place : String
  time : Int
  url : String
deriving DecidableEq

/-- `quake.geometry`: the GeoJSON coordinates triple, stored in
(longitude, latitude, depth) order exactly as in the feed. -/
structure QuakeGeometry where
  coordinates : ℚ × ℚ × ℚ
deriving DecidableEq

/-- One earthquake feature record from the feed. -/
structure Quake where
  id : String
  properties : QuakeProperties
  geometry : QuakeGeometry
deriving DecidableEq

/-- A region catalog entry: `{ name, center: [lat, lon], zoom }`. -/
structure Region where
  name : String
  center : ℚ × ℚ
  zoom : ℕ
deriving DecidableEq, Inhabited

/-- The fixed region catalog from App.js. -/
def regions : List Region :=
  [ ⟨"World", (20, 0), 2⟩,
    ⟨"North America", (54, -105), 3⟩,
    ⟨"South America", (-15, -60), 3⟩,
    ⟨"Europe", (54, 15), 4⟩,
    ⟨"Asia", (40, 100), 3⟩,
    ⟨"Africa", (0, 20), 3⟩,
    ⟨"Australia", (-25, 135), 4⟩,
    ⟨"India", (20, 77), 5⟩,
    ⟨"Japan", (36, 138), 5⟩,
    ⟨"California, USA", (36.7783, -119.4179), 6⟩ ]

/-- The component state: the five `useState` hooks of `App`. -/
structure AppState where
  earthquakes : List Quake
  loading : Bool
  error : Option String
  minMagnitude : ℚ
  selectedRegion : Region
deriving DecidableEq

/-- The initial state on mount:
`useState([])`, `useState(true)`, `useState(null)`, `useState(0)`,
`useState(regions[0])`. -/
def initState : AppState :=
  { earthquakes := []
    loading := true
    error := none
    minMagnitude := 0
    selectedRegion := regions[0]! }

deriving instance DecidableEq for Except

/-- The possible outcomes of `fetch(...)` as observed by `fetchData`:
the promise rejects with an error message, or a response arrives with an
`ok` flag and a body whose JSON parse yields the `features` list or an
error message. -/
inductive FetchResponse where
  | netError (msg : String)
  | response (ok : Bool) (body : Except String (List Quake))
deriving DecidableEq

/-- Whether a fetch outcome takes the `catch` path in `fetchData`. -/
def fetchFails : FetchResponse → Bool
  | .netError _ => true
  | .response ok body =>
      !ok || (match body with | .error _ => true | .ok _ => false)

/-- The `err.message` observed by the `catch` block for a failing
outcome (`""` placeholder on the success outcome, where it is unused). -/
def failMsg : FetchResponse → String
  | .netError m => m
  | .response ok body =>
      if ok then (match body with | .error m => m | .ok _ => "")
      else "Failed to fetch earthquake data!"

/-- The `fetchData` effect of App.js run against a fetch outcome:
throws on `!response.ok`, stores `data.features` on success, stores the
error message in the `catch`, and sets `loading := false` in `finally`. -/
def fetchData (s : AppState) (r : FetchResponse) : AppState :=
  let s1 :=
    match r with
    | .netError m => { s with error := some m }
    | .response ok body =>
        if ok then
          match body with
          | .ok feats => { s with earthquakes := feats }
          | .error m => { s with error := some m }
        else { s with error := some "Failed to fetch earthquake data!" }
  { s1 with loading := false }

/-- `filteredQuakes`: `earthquakes.filter((q) => q.properties.mag >= minMagnitude)`. -/
def filteredQuakes (s : AppState) : List Quake :=
  s.earthquakes.filter (fun q => jsGE q.properties.mag (.num s.minMagnitude))

/-- `getColor`: bucket a magnitude into a marker color. -/
def getColor (mag : JNum) : String :=
  if jsGE mag (.num 6) then "red"
  else if jsGE mag (.num 5) then "orange"
  else if jsGE mag (.num 4) then "yellow"
  else "blue"

/-- The observable content of the `divIcon` built by `createMarkerIcon`:
its background color and its width/height in pixels. -/
structure DivIconModel where
  color : String
  width : JNum
  height : JNum
deriving DecidableEq

/-- `createMarkerIcon`: color from `getColor`, width and height both
`8 + mag * 3` pixels. -/
def createMarkerIcon (mag : JNum) : DivIconModel :=
  { color := getColor mag
    width := jsAdd (.num 8) (jsMul mag (.num 3))
    height := jsAdd (.num 8) (jsMul mag (.num 3)) }

/-- The observable content of one rendered `<Marker>`: its React key,
its `[lat, lon]` position and its icon. -/
structure MarkerView where
  key : String
  position : ℚ × ℚ
  icon : DivIconModel
deriving DecidableEq

/-- The `<Marker>` produced for one quake: destructures
`[lon, lat, depth] = quake.geometry.coordinates`, keys by `quake.id`,
positions at `[lat, lon]`, icon from the magnitude. -/
def renderMarker (q : Quake) : MarkerView :=
  { key := q.id
    position := (q.geometry.coordinates.2.1, q.geometry.coordinates.1)
    icon := createMarkerIcon q.properties.mag }

/-- JS truthiness of the `error` state (null and `""` are falsy). -/
def errTruthy : Option String → Bool
  | none => false
  | some m => decide (m ≠ "")

/-- The render guard `!loading && !error` in front of the map. -/
def mapRendered (s : AppState) : Bool :=
  !s.loading && !errTruthy s.error

/-- The list of markers the component renders: nothing while loading or
on a (truthy) error, otherwise one marker per filtered quake. -/
def renderedMarkers (s : AppState) : List MarkerView :=
  if mapRendered s then (filteredQuakes s).map renderMarker else []

/-- The region dropdown `onChange` handler:
`regions.find((r) => r.name === value) || regions[0]`. -/
def selectRegion (value : String) : Region :=
  match regions.find? (fun r => r.name == value) with
  | some r => r
  | none => regions[0]!

/-- The user-driven events of a session after mount: the single fetch
settling, a slider change, a dropdown change. -/
inductive UIAction where
  | settle (r : FetchResponse)
  | setMin (t : ℚ)
  | selectReg (value : String)
deriving DecidableEq

/-- Whether an action is the fetch settling. -/
def isSettle : UIAction → Bool
  | .settle _ => true
  | _ => false

/-- State transition for one action. -/
def step (s : AppState) : UIAction → AppState
  | .settle r => fetchData s r
  | .setMin t => { s with minMagnitude := t }
  | .selectReg v => { s with selectedRegion := selectRegion v }

/-- Run a session trace from a state. -/
def runTrace (s : AppState) (tr : List UIAction) : AppState :=
  tr.foldl step s

/-- Number of settlement events in a trace. -/
def settleCount (tr : List UIAction) : ℕ :=
  tr.countP (fun a => isSettle a)

/-! ### Helper lemmas -/

/-- Evaluation of `getColor` on an actual number. -/
lemma getColor_num (m : ℚ) :
    getColor (.num m) =
      if 6 ≤ m then "red"
      else if 5 ≤ m then "orange"
      else if 4 ≤ m then "yellow"
      else "blue" := by
  simp [getColor, jsGE]

/-- The catalog's region names are pairwise distinct. -/
lemma regionNames_nodup : (regions.map Region.name).Nodup := by decide

/-- On a catalog with distinct names, `find?` by name returns exactly the
member carrying that name. -/
lemma find?_region_eq {l : List Region} {r : Region} {n : String}
    (hnd : (l.map Region.name).Nodup) (hm : r ∈ l) (hn : r.name = n) :
    l.find? (fun x => x.name == n) = some r := by
  induction l with
  | nil => cases hm
  | cons x l ih =>
    by_cases hx : x.name == n
    · rw [List.find?_cons_of_pos (p := fun y => y.name == n) l hx]
      rcases List.mem_cons.mp hm with h | h
      · rw [h]
      · exfalso
        have hxl : x.name ∉ l.map Region.name := (List.nodup_cons.mp hnd).1
        have : r.name ∈ l.map Region.name := List.mem_map_of_mem Region.name h
        rw [hn, ← (by simpa using hx : x.name = n)] at this
        exact hxl this
    · rw [List.find?_cons_of_neg (p := fun y => y.name == n) l hx]
      rcases List.mem_cons.mp hm with h | h
      · exfalso
        exact hx (by simp [h ▸ hn])
      · exact ih (List.nodup_cons.mp hnd).2 h

/-! ### Claims -/

/-- Claim C1: for every threshold and loaded list, the derived filtered
list contains exactly the events whose magnitude compares `>=` the
threshold, in their original order (it is a sublist, with counts
preserved), and it is a function of the loaded list and the threshold
alone, so it is recomputed exactly from those two inputs. -/
theorem filteredQuakes_spec (s : AppState) :
    (∀ q : Quake, q ∈ filteredQuakes s ↔
        q ∈ s.earthquakes ∧ jsGE q.properties.mag (.num s.minMagnitude) = true)
  ∧ (filteredQuakes s).Sublist s.earthquakes
  ∧ (∀ q : Quake, (filteredQuakes s).count q =
        if jsGE q.properties.mag (.num s.minMagnitude) then s.earthquakes.count q else 0)
  ∧ (∀ s' : AppState, s'.earthquakes = s.earthquakes →
        s'.minMagnitude = s.minMagnitude → filteredQuakes s' = filteredQuakes s) := by
  refine ⟨fun q => List.mem_filter, List.filter_sublist s.earthquakes, fun q => ?_, ?_⟩
  · split_ifs with h
    · exact List.count_filter h
    · exact List.count_eq_zero.mpr (fun hm => h (List.mem_filter.mp hm).2)
  · intro s' he ht
    unfold filteredQuakes
    rw [he, ht]

/-- Claim C1 witness: concrete instantiation of the quantified parts of
`filteredQuakes_spec`. -/
theorem filteredQuakes_spec_witness :
    filteredQuakes ⟨[⟨"q1", ⟨.num 5, "p", 0, "u"⟩, ⟨(1, 2, 3)⟩⟩], true, some "x", 2,
        ⟨"World", (20, 0), 2⟩⟩
      = filteredQuakes ⟨[⟨"q1", ⟨.num 5, "p", 0, "u"⟩, ⟨(1, 2, 3)⟩⟩], false, none, 2,
        ⟨"World", (20, 0), 2⟩⟩ :=
  (filteredQuakes_spec
      ⟨[⟨"q1", ⟨.num 5, "p", 0, "u"⟩, ⟨(1, 2, 3)⟩⟩], false, none, 2,
        ⟨"World", (20, 0), 2⟩⟩).2.2.2
    ⟨[⟨"q1", ⟨.num 5, "p", 0, "u"⟩, ⟨(1, 2, 3)⟩⟩], true, some "x", 2,
        ⟨"World", (20, 0), 2⟩⟩ rfl rfl

/-- Claim C2: `getColor` maps every magnitude into one of four
non-overlapping ascending buckets with closed-open boundaries except the
top bucket, and evaluates as specified at 3.9, 4.0, 4.9, 5.0, 5.9, 6.0
and 9.0. -/
theorem getColor_buckets (m : ℚ) :
    (m < 4 → getColor (.num m) = "blue")
  ∧ (4 ≤ m → m < 5 → getColor (.num m) = "yellow")
  ∧ (5 ≤ m → m < 6 → getColor (.num m) = "orange")
  ∧ (6 ≤ m → getColor (.num m) = "red")
  ∧ getColor (.num 3.9) = "blue"
  ∧ getColor (.num 4) = "yellow"
  ∧ getColor (.num 4.9) = "yellow"
  ∧ getColor (.num 5) = "orange"
  ∧ getColor (.num 5.9) = "orange"
  ∧ getColor (.num 6) = "red"
  ∧ getColor (.num 9) = "red" := by
  refine ⟨?_, ?_, ?_, ?_, ?_, ?_, ?_, ?_, ?_, ?_, ?_⟩ <;>
    first
      | (intro h
         rw [getColor_num, if_neg (by linarith), if_neg (by linarith),
             if_neg (by linarith)])
      | (intro h1 h2
         rw [getColor_num]
         first
           | rw [if_neg (by linarith), if_neg (by linarith), if_pos (by linarith)]
           | rw [if_neg (by linarith), if_pos (by linarith)])
      | (intro h
         rw [getColor_num, if_pos (by linarith)])
      | (rw [getColor_num]; norm_num)

/-- Claim C2 witness: the four bucket implications instantiated at
concrete magnitudes 2, 4.5, 5.5 and 7. -/
theorem getColor_buckets_witness :
    getColor (.num 2) = "blue" ∧ getColor (.num (9/2)) = "yellow"
  ∧ getColor (.num (11/2)) = "orange" ∧ getColor (.num 7) = "red" :=
  ⟨(getColor_buckets 2).1 (by norm_num),
   (getColor_buckets (9/2)).2.1 (by norm_num) (by norm_num),
   (getColor_buckets (11/2)).2.2.1 (by norm_num) (by norm_num),
   (getColor_buckets 7).2.2.2.1 (by norm_num)⟩

/-- Claim C4: selecting a name present in the catalog yields exactly that
catalog entry (with its center and zoom); selecting an absent name falls
back to the catalog's first entry, which is the World region. -/
theorem selectRegion_spec (n : String) :
    (∀ r : Region, r ∈ regions → r.name = n → selectRegion n = r)
  ∧ ((∀ r : Region, r ∈ regions → r.name ≠ n) → selectRegion n = regions[0]!)
  ∧ regions[0]! = ⟨"World", (20, 0), 2⟩ := by
  refine ⟨?_, ?_, by rfl⟩
  · intro r hm hn
    unfold selectRegion
    rw [find?_region_eq regionNames_nodup hm hn]
  · intro h
    unfold selectRegion
    have hnone : regions.find? (fun x => x.name == n) = none :=
      List.find?_eq_none.mpr (fun x hx => by simpa using h x hx)
    rw [hnone]

/-- Claim C4 witness: a present name ("Japan") yields its exact entry and
an absent name ("Atlantis") yields the first entry. -/
theorem selectRegion_spec_witness :
    selectRegion "Japan" = ⟨"Japan", (36, 138), 5⟩
  ∧ selectRegion "Atlantis" = ⟨"World", (20, 0), 2⟩ :=
  ⟨(selectRegion_spec "Japan").1 ⟨"Japan", (36, 138), 5⟩ (by decide) rfl,
   by rw [(selectRegion_spec "Atlantis").2.1 (by decide)]
      exact (selectRegion_spec "Atlantis").2.2⟩

/-- Claim C7: filtering a list already filtered at the same threshold
yields the same list, and the filtered list is a sublist of the loaded
list, which the filter never mutates (the state's list is untouched). -/
theorem filteredQuakes_idempotent (s : AppState) :
    filteredQuakes { s with earthquakes := filteredQuakes s } = filteredQuakes s
  ∧ (filteredQuakes s).Sublist s.earthquakes := by
  constructor
  · simp [filteredQuakes, List.filter_filter]
  · exact List.filter_sublist s.earthquakes

/-- Claim C9: the marker icon's width and height both equal `8 + 3·m`
pixels for a numeric magnitude `m`, so the size is strictly increasing
in the magnitude. -/
theorem createMarkerIcon_size :
    (∀ m : ℚ, (createMarkerIcon (.num m)).width = JNum.num (8 + 3 * m)
      ∧ (createMarkerIcon (.num m)).height = (createMarkerIcon (.num m)).width)
  ∧ (∀ m₁ m₂ : ℚ, m₁ < m₂ →
      jsLt (createMarkerIcon (.num m₁)).width (createMarkerIcon (.num m₂)).width = true) := by
  constructor
  · intro m
    constructor
    · simp [createMarkerIcon, jsAdd, jsMul, mul_comm]
    · rfl
  · intro m₁ m₂ h
    simp only [createMarkerIcon, jsAdd, jsMul, jsLt, decide_eq_true_eq]
    linarith

/-- Claim C9 witness: strict monotonicity instantiated at magnitudes
1 < 2. -/
theorem createMarkerIcon_size_witness :
    jsLt (createMarkerIcon (.num 1)).width (createMarkerIcon (.num 2)).width = true :=
  createMarkerIcon_size.2 1 2 (by norm_num)

/-- Claim C3: every failing fetch outcome (rejected promise, non-success
response, or parse error) with a non-empty runtime error message leaves
the event list empty, stores that message as a truthy (non-empty) error,
ends with loading false, and renders zero markers. -/
theorem fetch_failure_spec (r : FetchResponse) (hf : fetchFails r = true)
    (hm : failMsg r ≠ "") :
    (fetchData initState r).error = some (failMsg r)
  ∧ errTruthy (fetchData initState r).error = true
  ∧ (fetchData initState r).earthquakes = []
  ∧ (fetchData initState r).loading = false
  ∧ renderedMarkers (fetchData initState r) = [] := by
  have herr : (fetchData initState r).error = some (failMsg r) := by
    cases r with
    | netError m => rfl
    | response ok body =>
      cases ok with
      | false => rfl
      | true =>
        cases body with
        | error m => rfl
        | ok feats => simp [fetchFails] at hf
  have hq : (fetchData initState r).earthquakes = [] := by
    cases r with
    | netError m => rfl
    | response ok body =>
      cases ok with
      | false => rfl
      | true =>
        cases body with
        | error m => rfl
        | ok feats => simp [fetchFails] at hf
  refine ⟨herr, ?_, hq, rfl, ?_⟩
  · rw [herr]
    simpa [errTruthy] using hm
  · simp [renderedMarkers, filteredQuakes, hq]

/-- Claim C3 witness: the non-success HTTP response outcome fails with
the app's own non-empty message and ends not loading. -/
theorem fetch_failure_spec_witness :
    fetchFails (.response false (.ok [])) = true
  ∧ failMsg (.response false (.ok [])) ≠ ""
  ∧ (fetchData initState (.response false (.ok []))).loading = false :=
  ⟨rfl, by decide,
   (fetch_failure_spec (.response false (.ok [])) rfl (by decide)).2.2.2.1⟩

/-- Claim C6: a successful fetch replaces the event list wholesale with
the parsed features, the resulting state has no error message, and
loading is false; with an empty feature array the map renders (the guard
passes) with zero markers. -/
theorem fetch_success_spec :
    (∀ feats : List Quake,
        (fetchData initState (.response true (.ok feats))).earthquakes = feats
      ∧ (fetchData initState (.response true (.ok feats))).error = none
      ∧ (fetchData initState (.response true (.ok feats))).loading = false)
  ∧ mapRendered (fetchData initState (.response true (.ok []))) = true
  ∧ renderedMarkers (fetchData initState (.response true (.ok []))) = [] := by
  exact ⟨fun feats => ⟨rfl, rfl, rfl⟩, rfl, rfl⟩

/-- Claim C8: with the map rendered (not loading, no error), exactly one
marker is produced per filtered event, keyed by the event id and placed
at (latitude, longitude) from the (longitude, latitude, depth) GeoJSON
coordinates; the single 6.2-magnitude event at (lon -118.2, lat 34)
yields one red marker at (34, -118.2) under threshold 0 and no marker
under threshold 6.5. -/
theorem markers_spec :
    (∀ (quakes : List Quake) (t : ℚ) (reg : Region),
        List.Forall₂ (fun (q : Quake) (m : MarkerView) =>
            m.key = q.id
          ∧ m.position = (q.geometry.coordinates.2.1, q.geometry.coordinates.1)
          ∧ m.icon = createMarkerIcon q.properties.mag)
          (filteredQuakes ⟨quakes, false, none, t, reg⟩)
          (renderedMarkers ⟨quakes, false, none, t, reg⟩)
      ∧ (renderedMarkers ⟨quakes, false, none, t, reg⟩).length
          = (filteredQuakes ⟨quakes, false, none, t, reg⟩).length)
  ∧ renderedMarkers ⟨[⟨"ci1234", ⟨.num 6.2, "LA", 0, "u"⟩, ⟨(-118.2, 34, 10)⟩⟩],
        false, none, 0, ⟨"World", (20, 0), 2⟩⟩
      = [⟨"ci1234", (34, -118.2), ⟨"red", .num 26.6, .num 26.6⟩⟩]
  ∧ renderedMarkers ⟨[⟨"ci1234", ⟨.num 6.2, "LA", 0, "u"⟩, ⟨(-118.2, 34, 10)⟩⟩],
        false, none, 6.5, ⟨"World", (20, 0), 2⟩⟩
      = [] := by
  refine ⟨fun quakes t reg => ⟨?_, ?_⟩, ?_, ?_⟩
  · rw [show renderedMarkers ⟨quakes, false, none, t, reg⟩
        = (filteredQuakes ⟨quakes, false, none, t, reg⟩).map renderMarker from rfl]
    rw [List.forall₂_map_right_iff]
    exact List.forall₂_same.mpr (fun q _ => ⟨rfl, rfl, rfl⟩)
  · rw [show renderedMarkers ⟨quakes, false, none, t, reg⟩
        = (filteredQuakes ⟨quakes, false, none, t, reg⟩).map renderMarker from rfl]
    exact List.length_map _ _
  · norm_num [renderedMarkers, mapRendered, errTruthy, filteredQuakes, List.filter_cons,
      jsGE, renderMarker, createMarkerIcon, jsAdd, jsMul, getColor]
  · norm_num [renderedMarkers, mapRendered, errTruthy, filteredQuakes, List.filter_cons,
      jsGE, renderMarker, createMarkerIcon, jsAdd, jsMul, getColor]

/-- Running a trace splits across append. -/
lemma runTrace_append (s : AppState) (p q : List UIAction) :
    runTrace s (p ++ q) = runTrace (runTrace s p) q :=
  List.foldl_append step s p q

/-- One step's effect on the loading flag: a settlement forces it false,
every other action leaves it unchanged. -/
lemma step_loading (s : AppState) (a : UIAction) :
    (step s a).loading = (!isSettle a && s.loading) := by
  cases a with
  | settle r => rfl
  | setMin t => rfl
  | selectReg v => rfl

/-- The loading flag after a trace: true exactly while no settlement has
occurred. -/
lemma runTrace_loading (s : AppState) (tr : List UIAction) :
    (runTrace s tr).loading = (s.loading && !tr.any isSettle) := by
  induction tr generalizing s with
  | nil => simp [runTrace]
  | cons a tr ih =>
    rw [show runTrace s (a :: tr) = runTrace (step s a) tr from rfl, ih, step_loading,
      List.any_cons]
    cases isSettle a <;> cases s.loading <;> simp

/-- A step that is not a failing settlement leaves the error unchanged. -/
lemma step_error_of_ok (s : AppState) (a : UIAction)
    (h : ∀ r, a = .settle r → fetchFails r = false) :
    (step s a).error = s.error := by
  cases a with
  | settle r =>
    have hr := h r rfl
    cases r with
    | netError m => simp [fetchFails] at hr
    | response ok body =>
      cases ok with
      | false => simp [fetchFails] at hr
      | true =>
        cases body with
        | error m => simp [fetchFails] at hr
        | ok feats => rfl
  | setMin t => rfl
  | selectReg v => rfl

/-- A trace with no failing settlement leaves the error unchanged. -/
lemma runTrace_error_of_ok (s : AppState) (tr : List UIAction)
    (h : ∀ r, UIAction.settle r ∈ tr → fetchFails r = false) :
    (runTrace s tr).error = s.error := by
  induction tr generalizing s with
  | nil => rfl
  | cons a tr ih =>
    rw [show runTrace s (a :: tr) = runTrace (step s a) tr from rfl]
    rw [ih (step s a) (fun r hr => h r (List.mem_cons_of_mem a hr))]
    exact step_error_of_ok s a (fun r ha => h r (ha ▸ List.mem_cons_self a tr))

/-- No single step ever clears the error back to `none`. -/
lemma step_error_none (s : AppState) (a : UIAction)
    (h : (step s a).error = none) : s.error = none := by
  cases a with
  | settle r =>
    cases r with
    | netError m => simp [step, fetchData] at h
    | response ok body =>
      cases ok with
      | false => simp [step, fetchData] at h
      | true =>
        cases body with
        | error m => simp [step, fetchData] at h
        | ok feats => exact h
  | setMin t => exact h
  | selectReg v => exact h

/-- No trace ever clears the error back to `none`. -/
lemma runTrace_error_none (s : AppState) (tr : List UIAction)
    (h : (runTrace s tr).error = none) : s.error = none := by
  induction tr generalizing s with
  | nil => exact h
  | cons a tr ih => exact step_error_none s a (ih (step s a) h)

/-- A failing fetch outcome stores its message in the error state. -/
lemma fetchData_error_of_fails (s : AppState) (r : FetchResponse)
    (h : fetchFails r = true) : (fetchData s r).error = some (failMsg r) := by
  cases r with
  | netError m => rfl
  | response ok body =>
    cases ok with
    | false => rfl
    | true =>
      cases body with
      | error m => rfl
      | ok feats => simp [fetchFails] at h

/-- Claim C5: over any session trace with at most one fetch settlement,
loading starts true and is false exactly after the settlement (never
returning to true once false), and the error is non-none exactly when
the settlement failed, and once set it persists unchanged to the end of
the trace. -/
theorem loader_state_machine (tr : List UIAction) (hc : settleCount tr ≤ 1) :
    initState.loading = true
  ∧ ((runTrace initState tr).loading = false ↔ ∃ r, UIAction.settle r ∈ tr)
  ∧ ((runTrace initState tr).error ≠ none ↔
      ∃ r, UIAction.settle r ∈ tr ∧ fetchFails r = true)
  ∧ (∀ p q : List UIAction, tr = p ++ q →
      (runTrace initState p).loading = false → (runTrace initState tr).loading = false)
  ∧ (∀ (p q : List UIAction) (m : String), tr = p ++ q →
      (runTrace initState p).error = some m → (runTrace initState tr).error = some m) := by
  refine ⟨rfl, ?_, ?_, ?_, ?_⟩
  · rw [runTrace_loading]
    show (true && !tr.any isSettle) = false ↔ _
    simp only [Bool.true_and, Bool.not_eq_false', List.any_eq_true]
    constructor
    · rintro ⟨a, ha, hs⟩
      cases a with
      | settle r => exact ⟨r, ha⟩
      | setMin t => simp [isSettle] at hs
      | selectReg v => simp [isSettle] at hs
    · rintro ⟨r, hr⟩
      exact ⟨.settle r, hr, rfl⟩
  · constructor
    · intro hne
      by_contra hnofail
      push_neg at hnofail
      have hok : ∀ r, UIAction.settle r ∈ tr → fetchFails r = false := by
        intro r hr
        have := hnofail r hr
        simpa using this
      exact hne (runTrace_error_of_ok initState tr hok)
    · rintro ⟨r, hmem, hfail⟩
      obtain ⟨p, q, rfl⟩ := List.append_of_mem hmem
      intro hnone
      rw [runTrace_append] at hnone
      have h1 : (step (runTrace initState p) (.settle r)).error = none := by
        have : runTrace (runTrace initState p) (UIAction.settle r :: q)
            = runTrace (step (runTrace initState p) (.settle r)) q := rfl
        rw [this] at hnone
        exact runTrace_error_none _ q hnone
      rw [show (step (runTrace initState p) (.settle r)).error
          = (fetchData (runTrace initState p) r).error from rfl,
        fetchData_error_of_fails _ r hfail] at h1
      cases h1
  · intro p q hpq hl
    subst hpq
    rw [runTrace_loading] at hl ⊢
    rw [List.any_append]
    cases hp : p.any isSettle with
    | true => simp
    | false => rw [hp] at hl; simp [initState] at hl
  · intro p q m hpq herr
    subst hpq
    have hps : p.any isSettle = true := by
      by_contra hany
      have hnos : ∀ r, UIAction.settle r ∈ p → fetchFails r = false := by
        intro r hr
        exfalso
        exact hany (List.any_eq_true.mpr ⟨.settle r, hr, rfl⟩)
      rw [runTrace_error_of_ok initState p hnos] at herr
      cases herr
    have hcp : 0 < p.countP (fun a => isSettle a) := by
      obtain ⟨a, ha, hs⟩ := List.any_eq_true.mp hps
      exact List.countP_pos_iff.mpr ⟨a, ha, hs⟩
    have hcq : q.countP (fun a => isSettle a) = 0 := by
      have := hc
      unfold settleCount at this
      rw [List.countP_append] at this
      omega
    have hqok : ∀ r, UIAction.settle r ∈ q → fetchFails r = false := by
      intro r hr
      exfalso
      have : ¬ isSettle (UIAction.settle r) = true :=
        List.countP_eq_zero.mp hcq _ hr
      exact this rfl
    rw [runTrace_append, runTrace_error_of_ok _ q hqok]
    exact herr

/-- Claim C5 witness: a three-action session (slider change, failing
settlement, region change) with one settlement ends not loading. -/
theorem loader_state_machine_witness :
    settleCount
        [UIAction.setMin 1, UIAction.settle (.netError "boom"),
         UIAction.selectReg "Japan"] ≤ 1
  ∧ (runTrace initState
        [UIAction.setMin 1, UIAction.settle (.netError "boom"),
         UIAction.selectReg "Japan"]).loading = false :=
  ⟨by decide,
   (loader_state_machine
        [UIAction.setMin 1, UIAction.settle (.netError "boom"),
         UIAction.selectReg "Japan"] (by decide)).2.1.mpr
      ⟨.netError "boom", by decide⟩⟩

/-- Claim C10: `getColor` is total, always returning one of the four
colors, and NaN or a missing (undefined) magnitude falls through to
"blue". -/
theorem getColor_total :
    (∀ m : JNum, getColor m = "red" ∨ getColor m = "orange"
        ∨ getColor m = "yellow" ∨ getColor m = "blue")
  ∧ getColor .nan = "blue" ∧ getColor .undef = "blue" := by
  refine ⟨fun m => ?_, rfl, rfl⟩
  unfold getColor
  split_ifs <;> simp
